import Mathlib

/-!
# The USB CDC virtual COM port example of stm32plus

A shallow embedding of `examples/usb_device_cdc_com_port/usb_device_cdc_com_port.cpp`:
the class `UsbDeviceCdcComPortTest` with its two members, its event handlers
`onEvent`, `onControl`, `onData`, `onError`, and `run()`.

`run()` and the fatal branch of `onError` never return, so they are embedded as a
machine that executes one source statement per processor step. The subscribers are
called by the USB stack between two such steps and run to completion, except for the
fatal branch of `onError`, which takes the processor over for good.
-/

namespace UsbDeviceCdcComPortTest

/-! ## Data -/

/-- One byte of memory, the `char` and `uint8_t` of the source. -/
abbrev Byte := Fin 256

/-- The number of elements of `char _message[16]`, which is `sizeof(_message)`. -/
def messageSize : Nat := 16

/-- The two data members of the class, lines 44 and 45. -/
structure Session where
  _responseReady : Bool
  _message : Mathlib.Vector Byte 16
deriving DecidableEq

/-- The string literal of line 57. -/
def templateText : String := "You pressed: X\r\n"

/-- The characters of the literal of line 57 as bytes, without the terminating NUL. -/
def template : List Byte := templateText.toList.map (fun c => Fin.ofNat c.toNat)

/-- What the program does that can be seen from outside the two handlers and the loop,
in program order: stores to the flag, calls into the USB stack, the pin and the timer. -/
inductive Effect where
  /-- a store to `_responseReady` -/
  | writeReady (value : Bool)
  /-- the call `usb.transmit(data,size)`, with the contents of the buffer passed -/
  | transmit (data : List Byte) (size : Nat)
  /-- the call `usb.beginReceive()` -/
  | beginReceive
  /-- the declaration `GpioD<DefaultDigitalOutputFeature<5>> pd` -/
  | pinInit
  /-- the call `pd[5].reset()` -/
  | pinReset
  /-- the call `pd[5].set()` -/
  | pinSet
  /-- the call `MillisecondTimer::delay(ms)` -/
  | delay (ms : Nat)
deriving DecidableEq

/-- Modelled from the spec: the declaration of `CdcDataReceivedEvent` is not among the
sources. The event carries the bytes received from the host; `head` is `data[0]`, the
one byte `onData` reads, and `tail` the bytes after it. -/
structure CdcDataReceivedEvent where
  head : Byte
  tail : List Byte
deriving DecidableEq

/-- Modelled from the spec: the declaration of `CdcControlEvent` is not among the
sources; `onControl` reads nothing of it. -/
structure CdcControlEvent where
  payload : List Byte
deriving DecidableEq

/-- The values of `UsbEventDescriptor::EventType`: the two that `onEvent` tests for, and
the other members of the enumeration, which is declared outside the sources, by number. -/
inductive EventType where
  | CDC_DATA_RECEIVED
  | CDC_CONTROL
  | other (tag : Nat)
deriving DecidableEq

/-- A `UsbEventDescriptor&` as `onEvent` receives it: the object behind the reference
is of the subclass its `eventType` names, which is what makes the `static_cast`s of
lines 135 and 137 valid. -/
inductive UsbEventDescriptor where
  | cdcDataReceived (event : CdcDataReceivedEvent)
  | cdcControl (event : CdcControlEvent)
  | other (tag : Nat)
deriving DecidableEq

/-- The member `ued.eventType`. -/
def UsbEventDescriptor.eventType : UsbEventDescriptor → EventType
  | .cdcDataReceived _ => .CDC_DATA_RECEIVED
  | .cdcControl _ => .CDC_CONTROL
  | .other tag => .other tag

/-- A `UsbErrorEvent`: the two members `onError` reads. -/
structure UsbErrorEvent where
  provider : Nat
  code : Nat
deriving DecidableEq

/-- What the example takes from the library and the USB stack, whose sources are not
part of the example: the values of the two enumerators `onError` compares with, and
the result of `usb.initialise(usbParams)`. -/
structure Env where
  ERROR_PROVIDER_USB_DEVICE : Nat
  E_UNCONFIGURED : Nat
  initialiseResult : Bool

/-! ## The copy of line 57 -/

/-- The stores `strcpy(dest,src)` makes, as (index into `dest`, byte) in the order made:
the characters of `src`, then the terminating NUL. -/
def strcpyWrites (src : List Byte) : List (Nat × Byte) :=
  (src ++ [0]).enum

/-- One store through `_message + i`: inside the array it changes that element; outside
it the array keeps its contents and the store is returned as an overrun. -/
def storeAt (m : Mathlib.Vector Byte 16 × List (Nat × Byte)) (w : Nat × Byte) :
    Mathlib.Vector Byte 16 × List (Nat × Byte) :=
  if h : w.1 < 16 then (m.1.set ⟨w.1, h⟩ w.2, m.2) else (m.1, m.2 ++ [w])

/-- The call `strcpy(_message,src)`: the array afterwards, and the stores that fell outside it. -/
def strcpy (dest : Mathlib.Vector Byte 16) (src : List Byte) :
    Mathlib.Vector Byte 16 × List (Nat × Byte) :=
  (strcpyWrites src).foldl storeAt (dest, [])

/-! ## The handlers -/

/-- Lines 154 to 163: `_message[13]=event.data[0]; _responseReady=true;`. -/
def onData (s : Session) (event : CdcDataReceivedEvent) : Session × List Effect :=
  let s1 := { s with _message := s._message.set 13 event.head }
  ({ s1 with _responseReady := true }, [Effect.writeReady true])

/-- Lines 145 to 147: the body is a comment. -/
def onControl (s : Session) (_event : CdcControlEvent) : Session × List Effect :=
  (s, [])

/-- Lines 130 to 138: dispatch on `ued.eventType`. -/
def onEvent (s : Session) (ued : UsbEventDescriptor) : Session × List Effect :=
  match ued with
  | .cdcDataReceived event => onData s event
  | .cdcControl event => onControl s event
  | .other _ => (s, [])

/-- How a call of `onError` ends. -/
inductive ErrorOutcome where
  /-- the `return` of line 176 -/
  | returns
  /-- the loop of lines 182 to 187, which has no exit -/
  | locksUp
deriving DecidableEq

/-- Lines 175 and 176 of `onError`: the test that decides between the two. -/
def onError (env : Env) (uee : UsbErrorEvent) : ErrorOutcome :=
  if uee.provider = env.ERROR_PROVIDER_USB_DEVICE ∧ uee.code = env.E_UNCONFIGURED then
    ErrorOutcome.returns
  else
    ErrorOutcome.locksUp

/-! ## The machine -/

/-- The statements of `run()` from the call of `initialise` on. -/
inductive RunPc where
  /-- line 102, `if(!usb.initialise(usbParams))` -/
  | callInitialise
  /-- line 103, `for(;;);` -/
  | initFailed
  /-- line 111, `while(!_responseReady);` -/
  | waitReady
  /-- line 112, `_responseReady=false;` -/
  | clearReady
  /-- line 116, `usb.transmit(_message,sizeof(_message));` -/
  | callTransmit
  /-- line 120, `usb.beginReceive();` -/
  | callBeginReceive
deriving DecidableEq

/-- The four statements of the loop of `onError`, lines 183 to 186. -/
inductive BlinkPc where
  | callReset
  | delayAfterReset
  | callSet
  | delayAfterSet
deriving DecidableEq

/-- What the processor is executing: `run()`, or the loop of a call of `onError` that
will not return. -/
inductive Control where
  | run (pc : RunPc)
  | blink (pc : BlinkPc)
deriving DecidableEq

/-- The state of the machine. -/
structure State where
  session : Session
  control : Control
deriving DecidableEq

/-- What can happen next. -/
inductive Input where
  /-- the processor executes the statement it is at -/
  | cpu
  /-- the USB stack calls the subscriber `onEvent` -/
  | event (ued : UsbEventDescriptor)
  /-- the USB stack calls the subscriber `onError` -/
  | error (uee : UsbErrorEvent)
deriving DecidableEq

/-- Lines 56 and 57, the first two statements of `run()`: the session afterwards, the
store to the flag, and the stores of the copy that fell outside `_message`. The
statements up to line 95 fill in the parameters and register the two subscribers. -/
def runPrologue (s : Session) : Session × List Effect × List (Nat × Byte) :=
  let s1 := { s with _responseReady := false }
  let c := strcpy s1._message template
  ({ s1 with _message := c.1 }, [Effect.writeReady false], c.2)

/-- One statement of `run()`, lines 102 to 121. -/
def runStep (env : Env) (s : Session) : RunPc → Session × RunPc × List Effect
  | .callInitialise =>
      if env.initialiseResult then (s, .waitReady, []) else (s, .initFailed, [])
  | .initFailed => (s, .initFailed, [])
  | .waitReady =>
      if s._responseReady then (s, .clearReady, []) else (s, .waitReady, [])
  | .clearReady =>
      ({ s with _responseReady := false }, .callTransmit, [Effect.writeReady false])
  | .callTransmit =>
      (s, .callBeginReceive, [Effect.transmit s._message.toList messageSize])
  | .callBeginReceive => (s, .waitReady, [Effect.beginReceive])

/-- One statement of the loop of `onError`, lines 182 to 187. -/
def blinkStep : BlinkPc → BlinkPc × List Effect
  | .callReset => (.delayAfterReset, [Effect.pinReset])
  | .delayAfterReset => (.callSet, [Effect.delay 500])
  | .callSet => (.delayAfterSet, [Effect.pinSet])
  | .delayAfterSet => (.callReset, [Effect.delay 500])

/-- One step of the machine. A subscriber runs between two statements of whatever the
processor was executing. When `onError` does not return, line 180 has run and the
processor is at line 183 from then on; what it had been executing is never resumed. -/
def step (env : Env) (s : State) : Input → State × List Effect
  | .cpu =>
      match s.control with
      | .run pc =>
          let r := runStep env s.session pc
          ({ session := r.1, control := .run r.2.1 }, r.2.2)
      | .blink pc =>
          let r := blinkStep pc
          ({ s with control := .blink r.1 }, r.2)
  | .event ued =>
      let r := onEvent s.session ued
      ({ s with session := r.1 }, r.2)
  | .error uee =>
      match onError env uee with
      | .returns => (s, [])
      | .locksUp => ({ s with control := .blink .callReset }, [Effect.pinInit])

/-- The state after a sequence of inputs. -/
def after (env : Env) : State → List Input → State
  | s, [] => s
  | s, i :: rest => after env (step env s i).1 rest

/-- The effects of a sequence of inputs, in order. -/
def trace (env : Env) : State → List Input → List Effect
  | _, [] => []
  | s, i :: rest => (step env s i).2 ++ trace env (step env s i).1 rest

/-- The machine when `run()` reaches line 102, from the object `test` of `main()` as
its declaration left it. -/
def initialState (s0 : Session) : State :=
  { session := (runPrologue s0).1, control := .run .callInitialise }

/-- The effects of `run()` from its first statement on: the store of line 56, then those
of the machine from line 102. -/
def runTrace (env : Env) (s0 : Session) (ins : List Input) : List Effect :=
  (runPrologue s0).2.1 ++ trace env (initialState s0) ins

/-! ## Vocabulary of the properties -/

/-- The literal of line 57 laid over the 16 elements of `_message`. -/
def templateVector : Mathlib.Vector Byte 16 := ⟨template, by decide⟩

/-- The session after the data events `events` have gone through `onEvent`, one after
the other. -/
def afterDataEvents (s : Session) (events : List CdcDataReceivedEvent) : Session :=
  events.foldl (fun acc e => (onEvent acc (UsbEventDescriptor.cdcDataReceived e)).1) s

/-- Off index 13, the buffer is the template. -/
def TemplateOff13 (s : Session) : Prop :=
  ∀ b : Byte, s._message.set 13 b = templateVector.set 13 b

/-- The processor is in the loop of `onError`. -/
def isHalted (s : State) : Bool :=
  match s.control with
  | .blink _ => true
  | .run _ => false

/-- The processor is in one of the two loops without exit, line 103 or lines 182 to 187. -/
def isStuck (s : State) : Bool :=
  decide (s.control = Control.run RunPc.initFailed) || isHalted s

/-- The effect is a call of `transmit` or of `beginReceive`. -/
def Effect.isUsbCall : Effect → Bool
  | .transmit _ _ => true
  | .beginReceive => true
  | _ => false

/-- The effect is on the pin or the timer. -/
def Effect.isPinOrTimer : Effect → Bool
  | .pinInit => true
  | .pinReset => true
  | .pinSet => true
  | .delay _ => true
  | _ => false

/-- The effect is a call of `transmit`. -/
def Effect.isTransmit : Effect → Bool
  | .transmit _ _ => true
  | _ => false

/-- The effect is a call of `beginReceive`. -/
def Effect.isBeginReceive : Effect → Bool
  | .beginReceive => true
  | _ => false

/-- The input is an error event from which `onError` does not return. -/
def isFatal (env : Env) : Input → Bool
  | .error uee => onError env uee = ErrorOutcome.locksUp
  | _ => false

/-- The input is a data event. -/
def isDataEvent : Input → Bool
  | .event (.cdcDataReceived _) => true
  | _ => false

/-- One turn of the loop of `onError`, lines 183 to 186. -/
def blinkPeriod : List Effect :=
  [Effect.pinReset, Effect.delay 500, Effect.pinSet, Effect.delay 500]

/-- The three things the loop of `run()` does besides reading the flag. -/
inductive LoopAction where
  /-- line 112, the store of `false` to the flag -/
  | clear
  /-- line 116 -/
  | transmit
  /-- line 120 -/
  | beginReceive
deriving DecidableEq

/-- The action of the loop that an effect is, if it is one. The stores of `true` are
those of `onData`, the pin and the timer those of `onError`. -/
def Effect.loopAction : Effect → Option LoopAction
  | .writeReady false => some LoopAction.clear
  | .transmit _ _ => some LoopAction.transmit
  | .beginReceive => some LoopAction.beginReceive
  | _ => none

/-- The actions of the loop of `run()` in a trace, in order. -/
def mainLoopActions (t : List Effect) : List LoopAction :=
  t.filterMap Effect.loopAction

/-- The action that comes after another one, round the loop. -/
def LoopAction.next : LoopAction → LoopAction
  | .clear => .transmit
  | .transmit => .beginReceive
  | .beginReceive => .clear

/-- The actions go round the loop one after the other, the first of them being `first`. -/
def inLoopOrder : LoopAction → List LoopAction → Bool
  | _, [] => true
  | first, a :: rest => decide (a = first) && inLoopOrder first.next rest

/-- The action the loop does next when `run()` is at `pc`. -/
def nextAction : RunPc → LoopAction
  | .callTransmit => LoopAction.transmit
  | .callBeginReceive => LoopAction.beginReceive
  | _ => LoopAction.clear

/-- What the loop still does before it next clears the flag, when its next action is
`first`. -/
def restOfPass : LoopAction → List LoopAction
  | .clear => []
  | .transmit => [LoopAction.transmit, LoopAction.beginReceive]
  | .beginReceive => [LoopAction.beginReceive]

/-- The value an effect stores to the flag, if it is such a store. -/
def Effect.flagWrite : Effect → Option Bool
  | .writeReady value => some value
  | _ => none

/-- The values stored to the flag in a trace, in order. -/
def flagWrites (t : List Effect) : List Bool :=
  t.filterMap Effect.flagWrite

/-- The values are `first`, then its negation, and so on in turn. -/
def alternatesFrom : Bool → List Bool → Bool
  | _, [] => true
  | first, x :: rest => decide (x = first) && alternatesFrom (!first) rest

/-- No `false` is stored to a flag that holds `false`; `last` is what the flag holds
before the first store. -/
def neverFalseTwice : Bool → List Bool → Bool
  | _, [] => true
  | last, x :: rest => (x || last) && neverFalseTwice x rest

/-- The effects before the first store of `false` to the flag, if there is such a store. -/
def untilClear : List Effect → Option (List Effect)
  | [] => none
  | e :: rest =>
      if e = Effect.writeReady false then some [] else (untilClear rest).map (fun seg => e :: seg)

/-- For every occurrence of `start` that a store of `false` to the flag follows, the
effects between the two. -/
def segmentsAfter (start : Effect) : List Effect → List (List Effect)
  | [] => []
  | e :: rest =>
      (if e = start then (untilClear rest).toList else []) ++ segmentsAfter start rest

/-- Modelled from the spec: the USB stack is not among the sources. It hands over one
data event per reception that `beginReceive()` has armed: a data event uses the armed
reception up, a call of `beginReceive()` arms one. `armed` tells whether one is armed
before the first input. -/
def oneEventPerReceive (env : Env) : Bool → State → List Input → Bool
  | _, _, [] => true
  | armed, s, i :: rest =>
      if isDataEvent i then
        armed && oneEventPerReceive env false (step env s i).1 rest
      else
        oneEventPerReceive env (armed || decide (Effect.beginReceive ∈ (step env s i).2))
          (step env s i).1 rest

/-- Where `run()` is about to clear the flag, the flag is set. -/
def ClearOnlySet (s : State) : Prop :=
  s.control = Control.run RunPc.clearReady → s.session._responseReady = true

/-- What holds of the machine and of whether a reception is armed, when the stack hands
over one data event per armed reception. -/
def Disciplined (armed : Bool) (s : State) : Prop :=
  (armed = true → s.session._responseReady = false) ∧
    (s.control = Control.run RunPc.clearReady → s.session._responseReady = true) ∧
    (s.control = Control.run RunPc.callTransmit ∨
        s.control = Control.run RunPc.callBeginReceive →
      s.session._responseReady = false ∧ armed = false)

/-! ## Concrete inputs -/

/-- A concrete environment: the two enumerators are 3 and 5, `initialise` succeeds. -/
def sampleEnv : Env :=
  { ERROR_PROVIDER_USB_DEVICE := 3, E_UNCONFIGURED := 5, initialiseResult := true }

/-- The same environment with an `initialise` that fails. -/
def failingEnv : Env :=
  { ERROR_PROVIDER_USB_DEVICE := 3, E_UNCONFIGURED := 5, initialiseResult := false }

/-- A concrete object before `run()`: the flag set and every byte of the buffer 255. -/
def staleSession : Session :=
  { _responseReady := true, _message := Mathlib.Vector.replicate 16 255 }

/-- The data event for one key, the byte `c`. -/
def keyPressed (c : Byte) : Input :=
  Input.event (UsbEventDescriptor.cdcDataReceived { head := c, tail := [] })

/-- The template with the byte `c` in the place of the `X`. -/
def pressed (c : Byte) : List Byte :=
  [89, 111, 117, 32, 112, 114, 101, 115, 115, 101, 100, 58, 32, c, 13, 10]

/-- One key, then one turn of the loop of `run()`. -/
def oneKey : List Input :=
  [Input.cpu, keyPressed 65, Input.cpu, Input.cpu, Input.cpu, Input.cpu]

/-- Two keys one after the other, then one turn of the loop of `run()`. -/
def twoKeys : List Input :=
  [Input.cpu, keyPressed 65, keyPressed 66, Input.cpu, Input.cpu, Input.cpu, Input.cpu]

/-- One key and one turn of the loop, twice. -/
def keyByKey : List Input :=
  [Input.cpu, keyPressed 65, Input.cpu, Input.cpu, Input.cpu, Input.cpu,
    keyPressed 66, Input.cpu, Input.cpu, Input.cpu, Input.cpu]

/-! ## Lemmas on the buffer -/

theorem vector16_eq (v : Mathlib.Vector Byte 16) :
    v = ⟨[v.get 0, v.get 1, v.get 2, v.get 3, v.get 4, v.get 5, v.get 6, v.get 7, v.get 8,
      v.get 9, v.get 10, v.get 11, v.get 12, v.get 13, v.get 14, v.get 15], rfl⟩ := by
  apply Mathlib.Vector.ext
  intro i
  fin_cases i <;> rfl

theorem strcpy_template (v : Mathlib.Vector Byte 16) :
    (strcpy v template).1 = templateVector := by
  rw [vector16_eq v]
  rfl

theorem strcpy_template_overrun (v : Mathlib.Vector Byte 16) :
    (strcpy v template).2 = [(16, 0)] := rfl

theorem runPrologue_message (s : Session) : (runPrologue s).1._message = templateVector := by
  simp [runPrologue, strcpy_template]

theorem vector_set_set (v : Mathlib.Vector Byte 16) (i : Fin 16) (a b : Byte) :
    (v.set i a).set i b = v.set i b := by
  apply Subtype.ext
  show ((v.set i a).set i b).toList = (v.set i b).toList
  rw [Mathlib.Vector.toList_set, Mathlib.Vector.toList_set, Mathlib.Vector.toList_set,
    List.set_set]

theorem templateOff13_onData (s : Session) (e : CdcDataReceivedEvent) (h : TemplateOff13 s) :
    TemplateOff13 (onData s e).1 := by
  intro b
  show (s._message.set 13 e.head).set 13 b = _
  rw [vector_set_set]
  exact h b

theorem templateOff13_afterDataEvents (events : List CdcDataReceivedEvent) :
    ∀ s : Session, TemplateOff13 s → TemplateOff13 (afterDataEvents s events) := by
  induction events with
  | nil => intro s h; exact h
  | cons e rest ih =>
      intro s h
      exact ih (onData s e).1 (templateOff13_onData s e h)

theorem afterDataEvents_append (s : Session) (xs ys : List CdcDataReceivedEvent) :
    afterDataEvents s (xs ++ ys) = afterDataEvents (afterDataEvents s xs) ys := by
  simp [afterDataEvents, List.foldl_append]

/-! ## Lemmas on runs of the machine -/

theorem after_append (env : Env) (xs ys : List Input) :
    ∀ s : State, after env s (xs ++ ys) = after env (after env s xs) ys := by
  induction xs with
  | nil => intro s; rfl
  | cons i rest ih => intro s; exact ih (step env s i).1

theorem trace_append (env : Env) (xs ys : List Input) :
    ∀ s : State, trace env s (xs ++ ys) = trace env s xs ++ trace env (after env s xs) ys := by
  induction xs with
  | nil => intro s; rfl
  | cons i rest ih =>
      intro s
      show (step env s i).2 ++ trace env (step env s i).1 (rest ++ ys) = _
      rw [ih, ← List.append_assoc]
      rfl

theorem mem_trace (env : Env) (e : Effect) (ins : List Input) :
    ∀ s : State, e ∈ trace env s ins →
      ∃ pre i post, ins = pre ++ i :: post ∧ e ∈ (step env (after env s pre) i).2 := by
  induction ins with
  | nil => intro s h; simp [trace] at h
  | cons i rest ih =>
      intro s h
      simp only [trace, List.mem_append] at h
      rcases h with h | h
      · exact ⟨[], i, rest, rfl, h⟩
      · obtain ⟨pre, j, post, heq, hmem⟩ := ih _ h
        exact ⟨i :: pre, j, post, by simp [heq], hmem⟩

/-- What holds of the effects of every step from a state with `P`, when every step from
such a state leads to one, holds of the whole trace. -/
theorem trace_forall (env : Env) (P : State → Prop) (Q : Effect → Prop)
    (hstep : ∀ s i, P s → P (step env s i).1 ∧ ∀ e ∈ (step env s i).2, Q e)
    (ins : List Input) :
    ∀ s : State, P s → P (after env s ins) ∧ ∀ e ∈ trace env s ins, Q e := by
  induction ins with
  | nil => intro s h; exact ⟨h, by simp [trace]⟩
  | cons i rest ih =>
      intro s h
      have h1 := hstep s i h
      have h2 := ih (step env s i).1 h1.1
      refine ⟨h2.1, ?_⟩
      intro e he
      simp only [trace, List.mem_append] at he
      rcases he with he | he
      · exact h1.2 e he
      · exact h2.2 e he

/-! ## Lemmas on the two loops without exit -/

theorem halted_step (env : Env) (s : State) (i : Input) (h : isHalted s = true) :
    isHalted (step env s i).1 = true ∧ ∀ e ∈ (step env s i).2, e.isUsbCall = false := by
  obtain ⟨sess, ctl⟩ := s
  cases ctl with
  | run pc => simp [isHalted] at h
  | blink pc =>
      cases i with
      | cpu => cases pc <;> simp [step, blinkStep, isHalted, Effect.isUsbCall]
      | event ued =>
          cases ued <;> simp [step, onEvent, onData, onControl, isHalted, Effect.isUsbCall]
      | error uee =>
          cases h1 : onError env uee <;> simp [step, h1, isHalted, Effect.isUsbCall]

theorem stuck_step (env : Env) (s : State) (i : Input) (h : isStuck s = true) :
    isStuck (step env s i).1 = true ∧ ∀ e ∈ (step env s i).2, e.isUsbCall = false := by
  obtain ⟨sess, ctl⟩ := s
  cases ctl with
  | blink pc =>
      have h1 := halted_step env ⟨sess, Control.blink pc⟩ i rfl
      exact ⟨by simp [isStuck, h1.1], h1.2⟩
  | run pc =>
      cases pc <;> simp [isStuck, isHalted] at h
      cases i with
      | cpu => simp [step, runStep, isStuck]
      | event ued =>
          cases ued <;> simp [step, onEvent, onData, onControl, isStuck, Effect.isUsbCall]
      | error uee =>
          cases h1 : onError env uee <;> simp [step, h1, isStuck, isHalted, Effect.isUsbCall]

theorem initFailed_step (env : Env) (s : State) (i : Input)
    (h : s.control = Control.run RunPc.initFailed) (hi : isFatal env i = false) :
    (step env s i).1.control = Control.run RunPc.initFailed ∧
      ∀ e ∈ (step env s i).2, e.isPinOrTimer = false := by
  obtain ⟨sess, ctl⟩ := s
  simp only at h
  subst h
  cases i with
  | cpu => simp [step, runStep]
  | event ued =>
      cases ued <;> simp [step, onEvent, onData, onControl, Effect.isPinOrTimer]
  | error uee =>
      cases h1 : onError env uee <;> simp [step, h1, isFatal] at hi ⊢

theorem initFailed_quiet (env : Env) (ins : List Input) :
    ∀ s : State, s.control = Control.run RunPc.initFailed →
      (∀ i ∈ ins, isFatal env i = false) →
      (after env s ins).control = Control.run RunPc.initFailed ∧
        ∀ e ∈ trace env s ins, e.isPinOrTimer = false := by
  induction ins with
  | nil => intro s h _; exact ⟨h, by simp [trace]⟩
  | cons i rest ih =>
      intro s h hins
      have h1 := initFailed_step env s i h (hins i (List.mem_cons_self i rest))
      have h2 := ih (step env s i).1 h1.1 (fun j hj => hins j (List.mem_cons_of_mem i hj))
      refine ⟨h2.1, ?_⟩
      intro e he
      simp only [trace, List.mem_append] at he
      rcases he with he | he
      · exact h1.2 e he
      · exact h2.2 e he

theorem blink_period (env : Env) (s : State) (h : s.control = Control.blink BlinkPc.callReset) :
    after env s [Input.cpu, Input.cpu, Input.cpu, Input.cpu] = s ∧
      trace env s [Input.cpu, Input.cpu, Input.cpu, Input.cpu] = blinkPeriod := by
  obtain ⟨sess, ctl⟩ := s
  simp only at h
  subst h
  exact ⟨rfl, rfl⟩

theorem blink_periods (env : Env) (s : State) (h : s.control = Control.blink BlinkPc.callReset)
    (n : Nat) :
    after env s (List.replicate (4 * n) Input.cpu) = s ∧
      trace env s (List.replicate (4 * n) Input.cpu) = (List.replicate n blinkPeriod).flatten := by
  induction n with
  | zero => exact ⟨rfl, rfl⟩
  | succ k ih =>
      have e : List.replicate (4 * (k + 1)) Input.cpu
          = [Input.cpu, Input.cpu, Input.cpu, Input.cpu] ++ List.replicate (4 * k) Input.cpu := by
        rw [show 4 * (k + 1) = 4 + 4 * k by ring, List.replicate_add]
        rfl
      have p := blink_period env s h
      rw [e, after_append, trace_append, p.1, p.2, ih.1, ih.2]
      exact ⟨rfl, by simp [List.replicate_succ]⟩

theorem step_transmit (env : Env) (s : State) (i : Input) (data : List Byte) (size : Nat)
    (h : Effect.transmit data size ∈ (step env s i).2) :
    i = Input.cpu ∧ s.control = Control.run RunPc.callTransmit ∧
      data = s.session._message.toList ∧ size = messageSize := by
  obtain ⟨sess, ctl⟩ := s
  cases i with
  | cpu =>
      cases ctl with
      | run pc =>
          cases pc <;> simp [step, runStep] at h ⊢
          · split at h <;> simp at h
          · split at h <;> simp at h
          · exact h
      | blink pc => cases pc <;> simp [step, blinkStep] at h
  | event ued => cases ued <;> simp [step, onEvent, onData, onControl] at h
  | error uee => cases h1 : onError env uee <;> simp [step, h1] at h

/-! ## Lemmas on the order of the actions of the loop -/

theorem mainLoopActions_append (a b : List Effect) :
    mainLoopActions (a ++ b) = mainLoopActions a ++ mainLoopActions b := by
  simp [mainLoopActions, List.filterMap_append]

theorem step_loopOrder (env : Env) (s : State) (i : Input) (first : LoopAction)
    (h : ∀ pc, s.control = Control.run pc → first = nextAction pc) :
    (mainLoopActions (step env s i).2 = [] ∧
        ∀ pc, (step env s i).1.control = Control.run pc → first = nextAction pc) ∨
      (mainLoopActions (step env s i).2 = [first] ∧
        ∀ pc, (step env s i).1.control = Control.run pc → first.next = nextAction pc) := by
  obtain ⟨sess, ctl⟩ := s
  cases i with
  | event ued =>
      left
      cases ued <;>
        simpa [step, onEvent, onData, onControl, mainLoopActions, Effect.loopAction] using h
  | error uee =>
      left
      cases h1 : onError env uee
      · simpa [step, h1, mainLoopActions] using h
      · simp [step, h1, mainLoopActions, Effect.loopAction]
  | cpu =>
      cases ctl with
      | blink pc =>
          left
          cases pc <;> simp [step, blinkStep, mainLoopActions, Effect.loopAction]
      | run pc =>
          have hf := h pc rfl
          subst hf
          cases pc
          · left
            simp only [step, runStep]
            split <;> simp [mainLoopActions, nextAction]
          · left
            simp [step, runStep, mainLoopActions, nextAction]
          · left
            simp only [step, runStep]
            split <;> simp [mainLoopActions, nextAction]
          · right
            simp [step, runStep, mainLoopActions, nextAction, Effect.loopAction, LoopAction.next]
          · right
            simp [step, runStep, mainLoopActions, nextAction, Effect.loopAction, LoopAction.next]
          · right
            simp [step, runStep, mainLoopActions, nextAction, Effect.loopAction, LoopAction.next]

theorem trace_inLoopOrder (env : Env) (ins : List Input) :
    ∀ (s : State) (first : LoopAction),
      (∀ pc, s.control = Control.run pc → first = nextAction pc) →
      inLoopOrder first (mainLoopActions (trace env s ins)) = true := by
  induction ins with
  | nil => intro s first _; rfl
  | cons i rest ih =>
      intro s first h
      show inLoopOrder first (mainLoopActions ((step env s i).2 ++ trace env (step env s i).1 rest))
        = true
      rw [mainLoopActions_append]
      rcases step_loopOrder env s i first h with ⟨h1, h2⟩ | ⟨h1, h2⟩
      · rw [h1]
        exact ih _ first h2
      · rw [h1]
        simp [inLoopOrder, ih _ first.next h2]

theorem loopAction_clear (e : Effect) (h : e.loopAction = some LoopAction.clear) :
    e = Effect.writeReady false := by
  cases e with
  | writeReady value => cases value <;> simp [Effect.loopAction] at h ⊢
  | _ => simp [Effect.loopAction] at h

theorem restOfPass_cons (a : LoopAction) (h : a ≠ LoopAction.clear) :
    restOfPass a = a :: restOfPass a.next := by
  cases a <;> simp [restOfPass, LoopAction.next] at h ⊢

theorem segments_of_loopOrder (t : List Effect) :
    ∀ first : LoopAction, inLoopOrder first (mainLoopActions t) = true →
      (∀ seg, untilClear t = some seg → mainLoopActions seg = restOfPass first) ∧
      (∀ seg ∈ segmentsAfter (Effect.writeReady false) t,
        mainLoopActions seg = [LoopAction.transmit, LoopAction.beginReceive]) := by
  induction t with
  | nil => intro first _; simp [untilClear, segmentsAfter]
  | cons e rest ih =>
      intro first h
      by_cases he : e = Effect.writeReady false
      · subst he
        simp [mainLoopActions, Effect.loopAction, inLoopOrder] at h
        obtain ⟨h1, h2⟩ := h
        subst h1
        obtain ⟨ih1, ih2⟩ := ih LoopAction.transmit h2
        refine ⟨?_, ?_⟩
        · intro seg hseg
          simp [untilClear] at hseg
          subst hseg
          rfl
        · intro seg hseg
          simp only [segmentsAfter, if_true, List.mem_append, Option.mem_toList,
            Option.mem_def] at hseg
          rcases hseg with hseg | hseg
          · exact ih1 seg hseg
          · exact ih2 seg hseg
      · have hu : untilClear (e :: rest) = (untilClear rest).map (fun seg => e :: seg) := by
          simp [untilClear, he]
        have hs : segmentsAfter (Effect.writeReady false) (e :: rest)
            = segmentsAfter (Effect.writeReady false) rest := by
          simp [segmentsAfter, he]
        cases hla : e.loopAction with
        | none =>
            have h2 : inLoopOrder first (mainLoopActions rest) = true := by
              simpa [mainLoopActions, List.filterMap_cons, hla] using h
            obtain ⟨ih1, ih2⟩ := ih first h2
            refine ⟨?_, ?_⟩
            · intro seg hseg
              rw [hu, Option.map_eq_some'] at hseg
              obtain ⟨inner, hinner, rfl⟩ := hseg
              simpa [mainLoopActions, List.filterMap_cons, hla] using ih1 inner hinner
            · intro seg hseg
              rw [hs] at hseg
              exact ih2 seg hseg
        | some a =>
            have hne : a ≠ LoopAction.clear := fun hc => he (loopAction_clear e (hc ▸ hla))
            have h2 : a = first ∧ inLoopOrder first.next (mainLoopActions rest) = true := by
              simpa [mainLoopActions, List.filterMap_cons, hla, inLoopOrder] using h
            obtain ⟨rfl, h3⟩ := h2
            obtain ⟨ih1, ih2⟩ := ih a.next h3
            refine ⟨?_, ?_⟩
            · intro seg hseg
              rw [hu, Option.map_eq_some'] at hseg
              obtain ⟨inner, hinner, rfl⟩ := hseg
              rw [restOfPass_cons a hne]
              simpa [mainLoopActions, List.filterMap_cons, hla] using ih1 inner hinner
            · intro seg hseg
              rw [hs] at hseg
              exact ih2 seg hseg

theorem countP_isTransmit (seg : List Effect) :
    seg.countP Effect.isTransmit = (mainLoopActions seg).count LoopAction.transmit := by
  induction seg with
  | nil => rfl
  | cons e rest ih =>
      cases e with
      | writeReady value =>
          cases value <;>
            simpa [mainLoopActions, Effect.loopAction, Effect.isTransmit, List.countP_cons]
              using ih
      | _ =>
          simpa [mainLoopActions, Effect.loopAction, Effect.isTransmit, List.countP_cons]
            using ih

theorem countP_isBeginReceive (seg : List Effect) :
    seg.countP Effect.isBeginReceive = (mainLoopActions seg).count LoopAction.beginReceive := by
  induction seg with
  | nil => rfl
  | cons e rest ih =>
      cases e with
      | writeReady value =>
          cases value <;>
            simpa [mainLoopActions, Effect.loopAction, Effect.isBeginReceive, List.countP_cons]
              using ih
      | _ =>
          simpa [mainLoopActions, Effect.loopAction, Effect.isBeginReceive, List.countP_cons]
            using ih

/-! ## Lemmas on the stores to the flag -/

theorem flagWrites_append (a b : List Effect) :
    flagWrites (a ++ b) = flagWrites a ++ flagWrites b := by
  simp [flagWrites, List.filterMap_append]

theorem step_neverFalseTwice (env : Env) (s : State) (i : Input) (h : ClearOnlySet s) :
    ClearOnlySet (step env s i).1 ∧
      ((flagWrites (step env s i).2 = [] ∧
          (step env s i).1.session._responseReady = s.session._responseReady) ∨
        (∃ x, flagWrites (step env s i).2 = [x] ∧ (x || s.session._responseReady) = true ∧
          (step env s i).1.session._responseReady = x)) := by
  obtain ⟨sess, ctl⟩ := s
  cases i with
  | event ued =>
      cases ued with
      | cdcDataReceived e =>
          refine ⟨?_, Or.inr ⟨true, ?_⟩⟩
          · intro _
            simp [step, onEvent, onData]
          · simp [step, onEvent, onData, flagWrites, Effect.flagWrite]
      | cdcControl e =>
          exact ⟨by simpa [step, onEvent, onControl] using h,
            Or.inl (by simp [step, onEvent, onControl, flagWrites])⟩
      | other tag =>
          exact ⟨by simpa [step, onEvent] using h, Or.inl (by simp [step, onEvent, flagWrites])⟩
  | error uee =>
      cases h1 : onError env uee
      · exact ⟨by simpa [step, h1] using h, Or.inl (by simp [step, h1, flagWrites])⟩
      · exact ⟨by simp [step, h1, ClearOnlySet],
          Or.inl (by simp [step, h1, flagWrites, Effect.flagWrite])⟩
  | cpu =>
      cases ctl with
      | blink pc =>
          cases pc <;>
            exact ⟨by simp [step, blinkStep, ClearOnlySet],
              Or.inl (by simp [step, blinkStep, flagWrites, Effect.flagWrite])⟩
      | run pc =>
          cases pc
          · refine ⟨?_, Or.inl ?_⟩ <;> simp only [step, runStep] <;> split <;>
              simp [ClearOnlySet, flagWrites]
          · exact ⟨by simp [step, runStep, ClearOnlySet],
              Or.inl (by simp [step, runStep, flagWrites])⟩
          · refine ⟨?_, Or.inl ?_⟩
            · simp only [step, runStep]
              split
              · intro _; assumption
              · simp [ClearOnlySet]
            · simp only [step, runStep]
              split <;> simp [flagWrites]
          · have hset : sess._responseReady = true := h rfl
            refine ⟨by simp [step, runStep, ClearOnlySet], Or.inr ⟨false, ?_⟩⟩
            simp [step, runStep, flagWrites, Effect.flagWrite, hset]
          · exact ⟨by simp [step, runStep, ClearOnlySet],
              Or.inl (by simp [step, runStep, flagWrites, Effect.flagWrite])⟩
          · exact ⟨by simp [step, runStep, ClearOnlySet],
              Or.inl (by simp [step, runStep, flagWrites, Effect.flagWrite])⟩

theorem trace_neverFalseTwice (env : Env) (ins : List Input) :
    ∀ s : State, ClearOnlySet s →
      neverFalseTwice s.session._responseReady (flagWrites (trace env s ins)) = true := by
  induction ins with
  | nil => intro s _; rfl
  | cons i rest ih =>
      intro s h
      show neverFalseTwice _ (flagWrites ((step env s i).2 ++ trace env (step env s i).1 rest))
        = true
      rw [flagWrites_append]
      obtain ⟨h1, h2⟩ := step_neverFalseTwice env s i h
      have h3 := ih _ h1
      rcases h2 with ⟨hw, hf⟩ | ⟨x, hw, hx, hf⟩
      · rw [hw, ← hf]
        exact h3
      · rw [hw]
        rw [hf] at h3
        simp [neverFalseTwice, hx, h3]

theorem step_data_disciplined (env : Env) (s : State) (e : CdcDataReceivedEvent)
    (h : Disciplined true s) :
    Disciplined false (step env s (Input.event (UsbEventDescriptor.cdcDataReceived e))).1 ∧
      flagWrites (step env s (Input.event (UsbEventDescriptor.cdcDataReceived e))).2
        = [!s.session._responseReady] ∧
      (step env s (Input.event (UsbEventDescriptor.cdcDataReceived e))).1.session._responseReady
        = !s.session._responseReady := by
  obtain ⟨sess, ctl⟩ := s
  obtain ⟨h1, _, h3⟩ := h
  have hf : sess._responseReady = false := h1 rfl
  refine ⟨⟨by simp, by simp [step, onEvent, onData], ?_⟩, ?_, ?_⟩
  · intro hc
    have := (h3 (by simpa [step] using hc)).2
    simp at this
  · simp [step, onEvent, onData, flagWrites, Effect.flagWrite, hf]
  · simp [step, onEvent, onData, hf]

theorem step_other_disciplined (env : Env) (armed : Bool) (s : State) (i : Input)
    (hi : isDataEvent i = false) (h : Disciplined armed s) :
    Disciplined (armed || decide (Effect.beginReceive ∈ (step env s i).2)) (step env s i).1 ∧
      ((flagWrites (step env s i).2 = [] ∧
          (step env s i).1.session._responseReady = s.session._responseReady) ∨
        (flagWrites (step env s i).2 = [!s.session._responseReady] ∧
          (step env s i).1.session._responseReady = !s.session._responseReady)) := by
  obtain ⟨sess, ctl⟩ := s
  obtain ⟨h1, h2, h3⟩ := h
  cases i with
  | event ued =>
      cases ued with
      | cdcDataReceived e => simp [isDataEvent] at hi
      | cdcControl e =>
          exact ⟨by simpa [step, onEvent, onControl, Disciplined] using ⟨h1, h2, h3⟩,
            Or.inl (by simp [step, onEvent, onControl, flagWrites])⟩
      | other tag =>
          exact ⟨by simpa [step, onEvent, Disciplined] using ⟨h1, h2, h3⟩,
            Or.inl (by simp [step, onEvent, flagWrites])⟩
  | error uee =>
      cases hu : onError env uee
      · exact ⟨by simpa [step, hu, Disciplined] using ⟨h1, h2, h3⟩,
          Or.inl (by simp [step, hu, flagWrites])⟩
      · exact ⟨by simpa [step, hu, Disciplined] using h1,
          Or.inl (by simp [step, hu, flagWrites, Effect.flagWrite])⟩
  | cpu =>
      cases ctl with
      | blink pc =>
          cases pc <;>
            exact ⟨by simpa [step, blinkStep, Disciplined] using h1,
              Or.inl (by simp [step, blinkStep, flagWrites, Effect.flagWrite])⟩
      | run pc =>
          cases pc
          · refine ⟨?_, Or.inl ?_⟩
            · simp only [step, runStep]
              split <;> simpa [Disciplined] using h1
            · simp only [step, runStep]
              split <;> simp [flagWrites]
          · exact ⟨by simpa [step, runStep, Disciplined] using h1,
              Or.inl (by simp [step, runStep, flagWrites])⟩
          · refine ⟨?_, Or.inl ?_⟩
            · simp only [step, runStep]
              split
              · rename_i hset
                simpa [Disciplined, hset] using h1
              · simpa [Disciplined] using h1
            · simp only [step, runStep]
              split <;> simp [flagWrites]
          · have hset : sess._responseReady = true := h2 rfl
            have harmed : armed = false := by
              cases armed
              · rfl
              · have := h1 rfl
                simp [hset] at this
            refine ⟨by simp [step, runStep, Disciplined, harmed], Or.inr ?_⟩
            simp [step, runStep, flagWrites, Effect.flagWrite, hset]
          · obtain ⟨hf, harmed⟩ := h3 (Or.inl rfl)
            simp only at hf
            exact ⟨by simp [step, runStep, Disciplined, harmed, hf],
              Or.inl (by simp [step, runStep, flagWrites, Effect.flagWrite])⟩
          · obtain ⟨hf, harmed⟩ := h3 (Or.inr rfl)
            simp only at hf
            exact ⟨by simp [step, runStep, Disciplined, hf],
              Or.inl (by simp [step, runStep, flagWrites, Effect.flagWrite])⟩

theorem trace_alternates (env : Env) (ins : List Input) :
    ∀ (armed : Bool) (s : State), Disciplined armed s →
      oneEventPerReceive env armed s ins = true →
      alternatesFrom (!s.session._responseReady) (flagWrites (trace env s ins)) = true := by
  induction ins with
  | nil => intro _ s _ _; rfl
  | cons i rest ih =>
      intro armed s h hd
      show alternatesFrom _ (flagWrites ((step env s i).2 ++ trace env (step env s i).1 rest))
        = true
      rw [flagWrites_append]
      cases hi : isDataEvent i with
      | true =>
          simp only [oneEventPerReceive, hi, if_true, Bool.and_eq_true] at hd
          obtain ⟨ha, hrest⟩ := hd
          subst ha
          cases i with
          | event ued =>
              cases ued with
              | cdcDataReceived e =>
                  obtain ⟨k1, k2, k3⟩ := step_data_disciplined env s e h
                  have := ih false _ k1 hrest
                  rw [k2]
                  rw [k3, Bool.not_not] at this
                  simp [alternatesFrom, this]
              | cdcControl e => simp [isDataEvent] at hi
              | other tag => simp [isDataEvent] at hi
          | cpu => simp [isDataEvent] at hi
          | error uee => simp [isDataEvent] at hi
      | false =>
          simp only [oneEventPerReceive, hi] at hd
          obtain ⟨k1, k2⟩ := step_other_disciplined env armed s i hi h
          have := ih _ _ k1 (by simpa using hd)
          rcases k2 with ⟨kw, kf⟩ | ⟨kw, kf⟩
          · rw [kw, ← kf]
            exact this
          · rw [kw]
            rw [kf, Bool.not_not] at this
            simp [alternatesFrom, this]

theorem initialState_flag (s0 : Session) :
    (initialState s0).session._responseReady = false := rfl

theorem initialState_control (s0 : Session) :
    (initialState s0).control = Control.run RunPc.callInitialise := rfl

/-! ## The claims -/

/-- C1: after a non-empty sequence of data events, `earlier` followed by `last`, has gone
through `onEvent` on a session that `run()` initialised, the buffer is the template with
element 13, the `X`, replaced by the first byte of `last`: element 13 is that byte and
the 15 others are those of the template. -/
theorem message_after_data_events (s0 : Session) (earlier : List CdcDataReceivedEvent)
    (last : CdcDataReceivedEvent) :
    templateVector.get 13 = Fin.ofNat 'X'.toNat ∧
      (afterDataEvents (runPrologue s0).1 (earlier ++ [last]))._message
        = templateVector.set 13 last.head ∧
      (afterDataEvents (runPrologue s0).1 (earlier ++ [last]))._message.get 13 = last.head ∧
      ∀ i : Fin 16, i ≠ 13 →
        (afterDataEvents (runPrologue s0).1 (earlier ++ [last]))._message.get i
          = templateVector.get i := by
  have h0 : TemplateOff13 (runPrologue s0).1 := by
    intro b
    rw [runPrologue_message]
  have h1 := templateOff13_afterDataEvents earlier _ h0
  have h2 : (afterDataEvents (runPrologue s0).1 (earlier ++ [last]))._message
      = templateVector.set 13 last.head := by
    rw [afterDataEvents_append]
    exact h1 last.head
  refine ⟨by decide, h2, ?_, ?_⟩
  · rw [h2, Mathlib.Vector.get_set_same]
  · intro i hi
    rw [h2, Mathlib.Vector.get_set_of_ne (Ne.symm hi)]

/-- C1 at the keys `A` then `B` on the stale object: element 5 is still the `r` of the
template. -/
theorem message_after_data_events_witness :
    (5 : Fin 16) ≠ 13 ∧
      (afterDataEvents (runPrologue staleSession).1
        ([{ head := 65, tail := [] }] ++ [{ head := 66, tail := [] }]))._message.get 5
        = templateVector.get 5 :=
  ⟨by decide,
    (message_after_data_events staleSession [{ head := 65, tail := [] }]
      { head := 66, tail := [] }).2.2.2 5 (by decide)⟩

/-- C2 as stated fails. After one key and one turn of the loop the stores to the flag
are `true` then `false` and nothing is issued between them: the transmit and the
beginReceive come after the store of `false`. After two keys in a row the stores of
`run()` and `onData` are `false`, `true`, `true`, `false`, which do not alternate. -/
theorem flag_writes_counterexample :
    trace sampleEnv (initialState staleSession) oneKey
        = [Effect.writeReady true, Effect.writeReady false,
            Effect.transmit (pressed 65) 16, Effect.beginReceive] ∧
      segmentsAfter (Effect.writeReady true) (trace sampleEnv (initialState staleSession) oneKey)
        = [[]] ∧
      ¬ (∀ seg ∈ segmentsAfter (Effect.writeReady true)
            (trace sampleEnv (initialState staleSession) oneKey),
          seg.countP Effect.isTransmit = 1 ∧ seg.countP Effect.isBeginReceive = 1) ∧
      flagWrites (runTrace sampleEnv staleSession twoKeys) = [false, true, true, false] ∧
      alternatesFrom false (flagWrites (runTrace sampleEnv staleSession twoKeys)) = false := by
  decide

/-- C2 as the code has it. From the initial state and for every sequence of inputs: the
loop stores `false` only to a flag that holds `true`, so no two stores of `false` follow
each other; between a store of `false` by the loop and the next one the loop issues
exactly one transmit and then one beginReceive; and when the stack hands over one data
event per armed reception, the values stored to the flag from line 56 on alternate,
`false` first. -/
theorem flag_writes_of_run (env : Env) (s0 : Session) (ins : List Input) :
    neverFalseTwice false (flagWrites (trace env (initialState s0) ins)) = true ∧
      (∀ seg ∈ segmentsAfter (Effect.writeReady false) (trace env (initialState s0) ins),
        mainLoopActions seg = [LoopAction.transmit, LoopAction.beginReceive] ∧
          seg.countP Effect.isTransmit = 1 ∧ seg.countP Effect.isBeginReceive = 1) ∧
      (∀ armed : Bool, oneEventPerReceive env armed (initialState s0) ins = true →
        alternatesFrom false (flagWrites (runTrace env s0 ins)) = true) := by
  have horder := trace_inLoopOrder env ins (initialState s0) LoopAction.clear (by
    intro pc hpc
    rw [initialState_control] at hpc
    cases hpc
    rfl)
  refine ⟨?_, ?_, ?_⟩
  · exact trace_neverFalseTwice env ins (initialState s0) (by
      intro hc
      rw [initialState_control] at hc
      cases hc)
  · intro seg hseg
    have h := (segments_of_loopOrder _ _ horder).2 seg hseg
    refine ⟨h, ?_, ?_⟩
    · rw [countP_isTransmit, h]
      rfl
    · rw [countP_isBeginReceive, h]
      rfl
  · intro armed hd
    have hinv : Disciplined armed (initialState s0) := by
      refine ⟨fun _ => rfl, ?_, ?_⟩
      · intro hc
        rw [initialState_control] at hc
        cases hc
      · intro hc
        rw [initialState_control] at hc
        rcases hc with hc | hc <;> cases hc
    have h := trace_alternates env ins armed (initialState s0) hinv hd
    rw [initialState_flag] at h
    have hrun : flagWrites (runTrace env s0 ins)
        = false :: flagWrites (trace env (initialState s0) ins) := rfl
    rw [hrun]
    simpa [alternatesFrom] using h

/-- C2 as the code has it, at two keys with a turn of the loop after each: the one
transmit and the one beginReceive lie between the two stores of `false`, and the values
of the flag alternate. -/
theorem flag_writes_of_run_witness :
    [Effect.transmit (pressed 65) 16, Effect.beginReceive, Effect.writeReady true]
        ∈ segmentsAfter (Effect.writeReady false)
          (trace sampleEnv (initialState staleSession) keyByKey) ∧
      ([Effect.transmit (pressed 65) 16, Effect.beginReceive,
          Effect.writeReady true].countP Effect.isTransmit = 1 ∧
        [Effect.transmit (pressed 65) 16, Effect.beginReceive,
          Effect.writeReady true].countP Effect.isBeginReceive = 1) ∧
      oneEventPerReceive sampleEnv true (initialState staleSession) keyByKey = true ∧
      alternatesFrom false (flagWrites (runTrace sampleEnv staleSession keyByKey)) = true :=
  ⟨by decide,
    ((flag_writes_of_run sampleEnv staleSession keyByKey).2.1 _ (by decide)).2,
    by decide,
    (flag_writes_of_run sampleEnv staleSession keyByKey).2.2 true (by decide)⟩

/-- C3 as stated fails. After one key, the actions of the loop are the store of `false`,
then the transmit, then the beginReceive: they do not start with the transmit. -/
theorem clear_precedes_transmit_counterexample :
    trace sampleEnv (initialState staleSession) oneKey
        = [Effect.writeReady true, Effect.writeReady false,
            Effect.transmit (pressed 65) 16, Effect.beginReceive] ∧
      mainLoopActions (trace sampleEnv (initialState staleSession) oneKey)
        = [LoopAction.clear, LoopAction.transmit, LoopAction.beginReceive] ∧
      inLoopOrder LoopAction.transmit
        (mainLoopActions (trace sampleEnv (initialState staleSession) oneKey)) = false := by
  decide

/-- C3 as the code has it. In every run the actions of the loop come in the order store
of `false`, transmit, beginReceive, turn after turn; and a turn that starts with the
flag read as `true` and is not interrupted does exactly these three, the transmit with
the buffer and the size 16, and is back at the read of the flag with the flag cleared. -/
theorem loop_clears_then_transmits (env : Env) (s0 : Session) (ins : List Input)
    (sess : Session) :
    inLoopOrder LoopAction.clear (mainLoopActions (trace env (initialState s0) ins)) = true ∧
      (sess._responseReady = true →
        trace env ⟨sess, Control.run RunPc.waitReady⟩
            [Input.cpu, Input.cpu, Input.cpu, Input.cpu]
          = [Effect.writeReady false, Effect.transmit sess._message.toList 16,
              Effect.beginReceive] ∧
        after env ⟨sess, Control.run RunPc.waitReady⟩
            [Input.cpu, Input.cpu, Input.cpu, Input.cpu]
          = ⟨{ sess with _responseReady := false }, Control.run RunPc.waitReady⟩) := by
  refine ⟨trace_inLoopOrder env ins _ _ ?_, ?_⟩
  · intro pc hpc
    rw [initialState_control] at hpc
    cases hpc
    rfl
  · intro h
    simp [trace, after, step, runStep, h, messageSize]

/-- C3 as the code has it, at the session that the key `A` has left behind. -/
theorem loop_clears_then_transmits_witness :
    (onData (runPrologue staleSession).1 { head := 65, tail := [] }).1._responseReady = true ∧
      trace sampleEnv
          ⟨(onData (runPrologue staleSession).1 { head := 65, tail := [] }).1,
            Control.run RunPc.waitReady⟩
          [Input.cpu, Input.cpu, Input.cpu, Input.cpu]
        = [Effect.writeReady false,
            Effect.transmit
              (onData (runPrologue staleSession).1 { head := 65, tail := [] }).1._message.toList
              16,
            Effect.beginReceive] :=
  ⟨rfl,
    ((loop_clears_then_transmits sampleEnv staleSession []
      (onData (runPrologue staleSession).1 { head := 65, tail := [] }).1).2 rfl).1⟩

/-- C4: `onError` goes into its loop exactly when the pair of provider and code is not
(ERROR_PROVIDER_USB_DEVICE, E_UNCONFIGURED). For that pair the call returns with the
state as it was and without any effect; any other pair runs line 180 and puts the
processor at line 183; and the right code from another provider, or another code from
the device provider, is such a pair. -/
theorem onError_fatal_iff (env : Env) (st : State) (uee : UsbErrorEvent) :
    (onError env uee = ErrorOutcome.locksUp ↔
        ¬ (uee.provider = env.ERROR_PROVIDER_USB_DEVICE ∧ uee.code = env.E_UNCONFIGURED)) ∧
      (uee.provider = env.ERROR_PROVIDER_USB_DEVICE ∧ uee.code = env.E_UNCONFIGURED →
        onError env uee = ErrorOutcome.returns ∧ step env st (Input.error uee) = (st, [])) ∧
      (¬ (uee.provider = env.ERROR_PROVIDER_USB_DEVICE ∧ uee.code = env.E_UNCONFIGURED) →
        step env st (Input.error uee)
          = ({ st with control := Control.blink BlinkPc.callReset }, [Effect.pinInit])) ∧
      (uee.provider ≠ env.ERROR_PROVIDER_USB_DEVICE → onError env uee = ErrorOutcome.locksUp) ∧
      (uee.code ≠ env.E_UNCONFIGURED → onError env uee = ErrorOutcome.locksUp) := by
  refine ⟨?_, ?_, ?_, ?_, ?_⟩
  · unfold onError
    split <;> simp_all
  · intro h
    have h1 : onError env uee = ErrorOutcome.returns := by simp [onError, h]
    exact ⟨h1, by simp [step, h1]⟩
  · intro h
    have h1 : onError env uee = ErrorOutcome.locksUp := by simp [onError, h]
    simp [step, h1]
  · intro h
    simp [onError, h]
  · intro h
    simp [onError, h]

/-- C4 where the enumerators are 3 and 5: the pair (3, 5) is let through, the pairs
(4, 5) and (3, 7) are not. -/
theorem onError_fatal_iff_witness :
    ((3 : Nat) = sampleEnv.ERROR_PROVIDER_USB_DEVICE ∧ (5 : Nat) = sampleEnv.E_UNCONFIGURED) ∧
      step sampleEnv (initialState staleSession) (Input.error { provider := 3, code := 5 })
        = (initialState staleSession, []) ∧
      (4 : Nat) ≠ sampleEnv.ERROR_PROVIDER_USB_DEVICE ∧
      onError sampleEnv { provider := 4, code := 5 } = ErrorOutcome.locksUp ∧
      (7 : Nat) ≠ sampleEnv.E_UNCONFIGURED ∧
      onError sampleEnv { provider := 3, code := 7 } = ErrorOutcome.locksUp :=
  ⟨by decide,
    ((onError_fatal_iff sampleEnv (initialState staleSession)
      { provider := 3, code := 5 }).2.1 (by decide)).2,
    by decide,
    (onError_fatal_iff sampleEnv (initialState staleSession)
      { provider := 4, code := 5 }).2.2.2.1 (by decide),
    by decide,
    (onError_fatal_iff sampleEnv (initialState staleSession)
      { provider := 3, code := 7 }).2.2.2.2 (by decide)⟩

/-- C5: once an error event from which `onError` does not return has been delivered,
the processor is in the loop of `onError` and stays there through every later sequence
of inputs, and no transmit and no beginReceive is among the effects of these inputs. -/
theorem halted_is_absorbing (env : Env) (st : State) (uee : UsbErrorEvent)
    (hfatal : onError env uee = ErrorOutcome.locksUp) (ins : List Input) :
    isHalted (step env st (Input.error uee)).1 = true ∧
      isHalted (after env (step env st (Input.error uee)).1 ins) = true ∧
      ∀ e ∈ trace env (step env st (Input.error uee)).1 ins, e.isUsbCall = false := by
  have h0 : isHalted (step env st (Input.error uee)).1 = true := by
    simp [step, hfatal, isHalted]
  exact ⟨h0, trace_forall env (fun s => isHalted s = true) (fun e => e.isUsbCall = false)
    (halted_step env) ins _ h0⟩

/-- C5 at the error (3, 7), followed by a key and processor steps: the pin is driven,
nothing is sent. -/
theorem halted_is_absorbing_witness :
    onError sampleEnv { provider := 3, code := 7 } = ErrorOutcome.locksUp ∧
      isHalted (after sampleEnv
        (step sampleEnv (initialState staleSession)
          (Input.error { provider := 3, code := 7 })).1 oneKey) = true ∧
      Effect.pinReset ∈ trace sampleEnv
        (step sampleEnv (initialState staleSession)
          (Input.error { provider := 3, code := 7 })).1 oneKey ∧
      Effect.pinReset.isUsbCall = false :=
  ⟨by decide,
    (halted_is_absorbing sampleEnv (initialState staleSession) { provider := 3, code := 7 }
      (by decide) oneKey).2.1,
    by decide,
    (halted_is_absorbing sampleEnv (initialState staleSession) { provider := 3, code := 7 }
      (by decide) oneKey).2.2 Effect.pinReset (by decide)⟩

/-- C6: when `initialise` returns false, line 102 takes `run()` to the empty loop of
line 103 without any effect, and a step of that loop has no effect either. From there,
through every sequence of inputs, the processor is in that loop or in the loop of
`onError`, never in the main loop, and no transmit and no beginReceive is issued; as
long as no error event from which `onError` does not return is delivered, `run()` stays
at line 103 and the pin and the timer are not touched. -/
theorem initialise_failure_halts (env : Env) (sess : Session)
    (hinit : env.initialiseResult = false) (ins : List Input) :
    step env ⟨sess, Control.run RunPc.callInitialise⟩ Input.cpu
        = (⟨sess, Control.run RunPc.initFailed⟩, []) ∧
      step env ⟨sess, Control.run RunPc.initFailed⟩ Input.cpu
        = (⟨sess, Control.run RunPc.initFailed⟩, []) ∧
      isStuck (after env ⟨sess, Control.run RunPc.initFailed⟩ ins) = true ∧
      (∀ e ∈ trace env ⟨sess, Control.run RunPc.initFailed⟩ ins, e.isUsbCall = false) ∧
      ((∀ i ∈ ins, isFatal env i = false) →
        (after env ⟨sess, Control.run RunPc.initFailed⟩ ins).control
            = Control.run RunPc.initFailed ∧
          ∀ e ∈ trace env ⟨sess, Control.run RunPc.initFailed⟩ ins, e.isPinOrTimer = false) := by
  have h1 := trace_forall env (fun s => isStuck s = true) (fun e => e.isUsbCall = false)
    (stuck_step env) ins ⟨sess, Control.run RunPc.initFailed⟩ (by simp [isStuck])
  refine ⟨by simp [step, runStep, hinit], by simp [step, runStep], h1.1, h1.2, ?_⟩
  intro hins
  exact initFailed_quiet env ins _ rfl hins

/-- C6 with an `initialise` that fails, followed by a key and processor steps: the store
of `onData` is the only effect. -/
theorem initialise_failure_halts_witness :
    failingEnv.initialiseResult = false ∧
      step failingEnv (initialState staleSession) Input.cpu
        = (⟨(runPrologue staleSession).1, Control.run RunPc.initFailed⟩, []) ∧
      (∀ i ∈ oneKey, isFatal failingEnv i = false) ∧
      (after failingEnv ⟨(runPrologue staleSession).1, Control.run RunPc.initFailed⟩
        oneKey).control = Control.run RunPc.initFailed ∧
      Effect.writeReady true
        ∈ trace failingEnv ⟨(runPrologue staleSession).1, Control.run RunPc.initFailed⟩ oneKey ∧
      (Effect.writeReady true).isUsbCall = false ∧
      (Effect.writeReady true).isPinOrTimer = false :=
  ⟨rfl,
    (initialise_failure_halts failingEnv (runPrologue staleSession).1 rfl oneKey).1,
    by decide,
    ((initialise_failure_halts failingEnv (runPrologue staleSession).1 rfl oneKey).2.2.2.2
      (by decide)).1,
    by decide,
    (initialise_failure_halts failingEnv (runPrologue staleSession).1 rfl oneKey).2.2.2.1
      (Effect.writeReady true) (by decide),
    ((initialise_failure_halts failingEnv (runPrologue staleSession).1 rfl oneKey).2.2.2.2
      (by decide)).2 (Effect.writeReady true) (by decide)⟩

/-- C7: every transmit among the effects of a run from the initial state has the size
16, which is `sizeof(_message)`, and passes 16 bytes: the contents of `_message` of the
session in the state in which `run()` makes the call at line 116. -/
theorem transmit_passes_message (env : Env) (s0 : Session) (ins : List Input)
    (data : List Byte) (size : Nat)
    (h : Effect.transmit data size ∈ trace env (initialState s0) ins) :
    size = 16 ∧ size = messageSize ∧ data.length = 16 ∧
      ∃ pre post, ins = pre ++ Input.cpu :: post ∧
        (after env (initialState s0) pre).control = Control.run RunPc.callTransmit ∧
        data = (after env (initialState s0) pre).session._message.toList := by
  obtain ⟨pre, i, post, hins, hmem⟩ := mem_trace env _ ins _ h
  obtain ⟨hi, hc, hd, hs⟩ := step_transmit env _ i data size hmem
  subst hi
  refine ⟨hs, hs, ?_, pre, post, hins, hc, hd⟩
  rw [hd]
  exact Mathlib.Vector.toList_length _

/-- C7 at the transmit that follows the key `A`. -/
theorem transmit_passes_message_witness :
    Effect.transmit (pressed 65) 16 ∈ trace sampleEnv (initialState staleSession) oneKey ∧
      (16 : Nat) = messageSize ∧ (pressed 65).length = 16 :=
  ⟨by decide,
    (transmit_passes_message sampleEnv staleSession oneKey (pressed 65) 16 (by decide)).2.1,
    (transmit_passes_message sampleEnv staleSession oneKey (pressed 65) 16 (by decide)).2.2.1⟩

/-- C8: the call of `onError` that does not return declares the pin and then, for every
n, the first 4n steps of its loop are n times: pin reset, delay of 500 ms, pin set,
delay of 500 ms, the reset first. -/
theorem halted_loop_blinks (env : Env) (st : State) (uee : UsbErrorEvent)
    (hfatal : onError env uee = ErrorOutcome.locksUp) (n : Nat) :
    (step env st (Input.error uee)).2 = [Effect.pinInit] ∧
      trace env (step env st (Input.error uee)).1 (List.replicate (4 * n) Input.cpu)
        = (List.replicate n
            [Effect.pinReset, Effect.delay 500, Effect.pinSet, Effect.delay 500]).flatten := by
  have h0 : (step env st (Input.error uee)).1.control = Control.blink BlinkPc.callReset := by
    simp [step, hfatal]
  exact ⟨by simp [step, hfatal], (blink_periods env _ h0 n).2⟩

/-- C8 at the error (3, 7) and two turns of the loop. -/
theorem halted_loop_blinks_witness :
    onError sampleEnv { provider := 3, code := 7 } = ErrorOutcome.locksUp ∧
      trace sampleEnv
          (step sampleEnv (initialState staleSession)
            (Input.error { provider := 3, code := 7 })).1
          (List.replicate (4 * 2) Input.cpu)
        = (List.replicate 2
            [Effect.pinReset, Effect.delay 500, Effect.pinSet, Effect.delay 500]).flatten :=
  ⟨by decide,
    (halted_loop_blinks sampleEnv (initialState staleSession) { provider := 3, code := 7 }
      (by decide) 2).2⟩

/-- C9: an event whose type is not CDC_DATA_RECEIVED goes through `onEvent` with the
buffer and the flag as they were and without any effect, whatever the processor is
executing; an event after which the flag differs from before is a CDC_DATA_RECEIVED; and
a step of the machine that stores `true` to the flag is the delivery of such an event. -/
theorem onEvent_not_data (env : Env) (st : State) (ued : UsbEventDescriptor) (i : Input) :
    (ued.eventType ≠ EventType.CDC_DATA_RECEIVED →
        onEvent st.session ued = (st.session, []) ∧ step env st (Input.event ued) = (st, [])) ∧
      ((onEvent st.session ued).1._responseReady ≠ st.session._responseReady →
        ued.eventType = EventType.CDC_DATA_RECEIVED) ∧
      (Effect.writeReady true ∈ (step env st i).2 →
        ∃ e, i = Input.event (UsbEventDescriptor.cdcDataReceived e)) := by
  refine ⟨?_, ?_, ?_⟩
  · cases ued with
    | cdcDataReceived e => simp [UsbEventDescriptor.eventType]
    | cdcControl e => simp [UsbEventDescriptor.eventType, onEvent, onControl, step]
    | other tag => simp [UsbEventDescriptor.eventType, onEvent, step]
  · cases ued with
    | cdcDataReceived e => simp [UsbEventDescriptor.eventType]
    | cdcControl e => simp [onEvent, onControl]
    | other tag => simp [onEvent]
  · intro h
    obtain ⟨sess, ctl⟩ := st
    cases i with
    | cpu =>
        cases ctl with
        | run pc =>
            cases pc <;> simp [step, runStep] at h
            · split at h <;> simp at h
            · split at h <;> simp at h
        | blink pc => cases pc <;> simp [step, blinkStep] at h
    | event e =>
        cases e with
        | cdcDataReceived d => exact ⟨d, rfl⟩
        | cdcControl c => simp [step, onEvent, onControl] at h
        | other tag => simp [step, onEvent] at h
    | error uee => cases h1 : onError env uee <;> simp [step, h1] at h

/-- C9 at a control event, which changes nothing, and at the key `A`, which sets the
flag. -/
theorem onEvent_not_data_witness :
    (UsbEventDescriptor.cdcControl { payload := [1] }).eventType ≠ EventType.CDC_DATA_RECEIVED ∧
      step sampleEnv (initialState staleSession)
          (Input.event (UsbEventDescriptor.cdcControl { payload := [1] }))
        = (initialState staleSession, []) ∧
      (onEvent (initialState staleSession).session
          (UsbEventDescriptor.cdcDataReceived { head := 65, tail := [] })).1._responseReady
        ≠ (initialState staleSession).session._responseReady ∧
      (UsbEventDescriptor.cdcDataReceived { head := 65, tail := [] }).eventType
        = EventType.CDC_DATA_RECEIVED ∧
      Effect.writeReady true ∈ (step sampleEnv (initialState staleSession) (keyPressed 65)).2 ∧
      ∃ e, keyPressed 65 = Input.event (UsbEventDescriptor.cdcDataReceived e) :=
  ⟨by decide,
    ((onEvent_not_data sampleEnv (initialState staleSession)
      (UsbEventDescriptor.cdcControl { payload := [1] }) Input.cpu).1 (by decide)).2,
    by decide,
    (onEvent_not_data sampleEnv (initialState staleSession)
      (UsbEventDescriptor.cdcDataReceived { head := 65, tail := [] }) Input.cpu).2.1
      (by decide),
    by decide,
    (onEvent_not_data sampleEnv (initialState staleSession)
      (UsbEventDescriptor.cdcControl { payload := [1] }) (keyPressed 65)).2.2 (by decide)⟩

/-- C10, as the code has it: the copy of line 57 makes 17 stores, one more than
`_message` has elements; the last of them, the terminating NUL, goes to index 16, past
the last element, whatever the object held before, while the 16 elements hold the
template. -/
theorem strcpy_overruns_message (s : Session) :
    (strcpyWrites template).length = 17 ∧ messageSize = 16 ∧
      ¬ (strcpyWrites template).length ≤ messageSize ∧
      (∃ w ∈ strcpyWrites template, messageSize ≤ w.1) ∧
      (runPrologue s).2.2 = [(16, 0)] ∧
      (runPrologue s).1._message = templateVector := by
  refine ⟨by decide, rfl, by decide, by decide, ?_, runPrologue_message s⟩
  exact strcpy_template_overrun _

end UsbDeviceCdcComPortTest
